import Mathlib

/-!
Verification of the scene playback / compositing / export pipeline of the
doc2Video repository.  The definitions below are shallow embeddings of the
TypeScript source: `src/components/Player.tsx` (the live `Player` component,
wired up in `src/App.tsx`), the `VideoPlayer` variant in `src/unnamed/part_000`,
and `src/services/audioUtils.ts`.

Modelling conventions:
  * real-number canvas arithmetic is carried out in `ℚ`;
  * canvas text measurement (`ctx.measureText`) is an abstract parameter
    (`measure`), applied to a line represented as the list of its words, each
    of which the code renders followed by one space;
  * Web Audio sources follow the platform semantics: `source.stop()` fires the
    source `onended` callback, exactly like a natural end of stream;
  * `setTimeout` continuations are kept in a pending-timer list; the repository
    never calls `clearTimeout`, so nothing removes them except firing;
  * the `MediaRecorder` is a flag (`some true` = recording, `some false` =
    inactive, `none` = never created); its `onstop` handler runs when `stop()`
    is called on a recording recorder;
  * React state setters and mutable refs together form one record `PState`.
-/

namespace Doc2Video

/-- Scene record, from `src/types.ts` (`Scene`).  `imageData`, `image`, `video`
are the optional visual-asset fields; the decoded narration buffer is modelled
by its presence (`hasAudioBuffer`), since only presence drives the sequencer. -/
structure Scene where
  id : ℕ
  text : String
  narration : String
  imageData : Option String
  image : Option String
  video : Option String
  hasAudioBuffer : Bool
deriving DecidableEq

/-- Export resolution presets, from `Player.tsx` (`type Resolution`). -/
inductive Resolution where
  | r720
  | r1080
deriving DecidableEq

/-- The string used for a resolution in UI and filenames. -/
def resString : Resolution → String
  | .r720 => "720p"
  | .r1080 => "1080p"

/-- One 2d-canvas drawing command, the observable output of the compositor. -/
inductive DrawOp where
  | fill (x y w h : ℚ)
  | gradRect (x y w h : ℚ)
  | imgFull (sx sy sw sh dx dy dw dh : ℚ)
  | img (dx dy dw dh : ℚ)
  | text (line : List String) (x y : ℚ)
deriving DecidableEq

/-- Destination rectangle of a cover-fit draw. -/
structure CoverRect where
  offsetX : ℚ
  offsetY : ℚ
  newW : ℚ
  newH : ℚ
deriving DecidableEq

/-- Cover-fit scaling, from `drawImageCover` in `src/unnamed/part_000`
(lines 185-199); the identical formula appears inline in `drawScene`
(`Player.tsx` lines 64-70): `ratio = max(w / sourceW, h / sourceH)`, the scaled
image is centered. -/
def drawImageCover (w h sourceW sourceH : ℚ) : CoverRect :=
  let ratio := max (w / sourceW) (h / sourceH)
  let newW := sourceW * ratio
  let newH := sourceH * ratio
  { offsetX := (w - newW) / 2
    offsetY := (h - newH) / 2
    newW := newW
    newH := newH }

/-- Inner loop of the word wrap (`Player.tsx` lines 96-105, part_000 lines
226-236) for the iterations with `n > 0`: `testLine = line + words[n] + ' '`;
on `measureText(testLine).width > maxWidth` push the current line and start a
new one with the overflowing word, else accept the test line.  A line is the
list of its words; the rendered string appends one space after each word, and
`measure` abstracts `ctx.measureText` applied to that rendered string. -/
def wrapGo (measure : List String → ℚ) (maxW : ℚ) :
    List String → List String → List (List String)
  | [], line => [line]
  | w :: rest, line =>
    if maxW < measure (line ++ [w]) then line :: wrapGo measure maxW rest [w]
    else wrapGo measure maxW rest (line ++ [w])

/-- Full word wrap.  The `n > 0` guard in the source means the first word is
always accepted into the empty current line; `text.split(' ')` never yields an
empty array, but the `[]` case mirrors pushing the empty `line`. -/
def wrapWords (measure : List String → ℚ) (maxW : ℚ) : List String → List (List String)
  | [] => [[]]
  | w :: rest => wrapGo measure maxW rest [w]

/-- Subtitle overlay of the `VideoPlayer` compositor, from `drawSubtitles` in
`src/unnamed/part_000` (lines 201-247): bottom 30% gradient, font size
`Math.floor(w / 40)`, wrap at `0.8 * w`, lines stacked bottom-up above a
`0.1 * h` bottom margin with line height `1.4 * fontSize`. -/
def drawSubtitles (measure : List String → ℚ) (text : String) (w h : ℚ) : List DrawOp :=
  let fontSize : ℚ := ((Int.floor (w / 40) : ℤ) : ℚ)
  let lines := wrapWords measure (w * 8 / 10) (text.splitOn " ")
  let lineHeight := fontSize * 14 / 10
  let bottomMargin := h / 10
  DrawOp.gradRect 0 (h * 7 / 10) w (h * 3 / 10) ::
    (lines.enum.map fun p =>
      DrawOp.text p.2 (w / 2)
        (h - bottomMargin - (((lines.length : ℚ) - 1 - (p.1 : ℚ)) * lineHeight)))

/-- One frame of the `VideoPlayer` compositor, from `drawFrame` in
`src/unnamed/part_000` (lines 156-183): black background, then the video frame
(skipped while the element reports zero intrinsic width or a ready state below
2, per the guard inside `drawImageCover`), else the image (skipped until
loaded), then the subtitles, drawn unconditionally.  `imgDims` abstracts the
intrinsic dimensions the environment decodes for an image source. -/
def drawFrame (measure : List String → ℚ) (imgDims : String → ℚ × ℚ)
    (imgComplete : Bool) (videoDims : ℚ × ℚ) (videoReady : Bool)
    (scene : Scene) (w h : ℚ) : List DrawOp :=
  let visual : List DrawOp :=
    match scene.video with
    | some _ =>
      if videoDims.1 = 0 ∨ videoReady = false then []
      else
        let c := drawImageCover w h videoDims.1 videoDims.2
        [DrawOp.img c.offsetX c.offsetY c.newW c.newH]
    | none =>
      match scene.image with
      | some data =>
        if imgComplete then
          let c := drawImageCover w h (imgDims data).1 (imgDims data).2
          [DrawOp.img c.offsetX c.offsetY c.newW c.newH]
        else []
      | none => []
  DrawOp.fill 0 0 w h :: visual ++ drawSubtitles measure scene.narration w h

/-- The `Player` compositor, from `drawScene` in `Player.tsx` (lines 43-122).
After the black clear, everything else - the cover-fit image, the gradient and
the word-wrapped subtitle overlay - is emitted inside the `renderImage`
closure, which only runs when `scene.imageData` is present (and the image
element has loaded; the loaded case is the one modelled, matching
`img.complete`).  An out-of-range index returns before the black fill. -/
def drawScene (measure : List String → ℚ) (imgDims : String → ℚ × ℚ)
    (scenes : List Scene) (index : ℕ) (width height : ℚ) : List DrawOp :=
  match scenes.get? index with
  | none => []
  | some scene =>
    let scale := width / 1280
    match scene.imageData with
    | none => [DrawOp.fill 0 0 width height]
    | some data =>
      let iw := (imgDims data).1
      let ih := (imgDims data).2
      let c := drawImageCover width height iw ih
      let fontSize := 32 * scale
      let lines := wrapWords measure (width - 100 * scale) (scene.text.splitOn " ")
      let lineHeight := 44 * scale
      let startY := height - 60 * scale - (lines.length : ℚ) * lineHeight
      DrawOp.fill 0 0 width height ::
      DrawOp.imgFull 0 0 iw ih c.offsetX c.offsetY c.newW c.newH ::
      DrawOp.gradRect 0 (height * 6 / 10) width (height * 4 / 10) ::
      (lines.enum.map fun p =>
        DrawOp.text p.2 (width / 2) (startY + (p.1 : ℚ) * lineHeight))

/-- Deterministic export filename, from `recorder.onstop` in `Player.tsx`
line 246: `story-video-${resolution}-${fps}fps.webm`. -/
def exportFilename (r : Resolution) (fps : ℕ) : String :=
  "story-video-" ++ resString r ++ "-" ++ toString fps ++ "fps.webm"

/-- Combined mutable state of the `Player` component (`Player.tsx` lines
16-41): React state plus the refs.  Audio sources get consecutive ids from
`nextId`; `playingSrcs` are the started-and-not-yet-ended sources together
with the scene index their `onended` closure captured; `endedQueue` holds
`onended` events that have fired (by natural end of stream or by `stop()`)
whose callbacks have not yet run; `timers` holds pending `setTimeout`
continuations as (scene index passed to `playScene`, delay in ms).
`recorderActive = some true` means the `MediaRecorder` is recording;
`downloads` accumulates (blob chunk list, filename) of every triggered
download. -/
structure PState where
  scenes : List Scene
  isPlaying : Bool
  currentSceneIdx : ℕ
  playbackSpeed : ℚ
  resolution : Resolution
  fps : ℕ
  isExporting : Bool
  audioSource : Option ℕ
  playingSrcs : List (ℕ × ℕ)
  endedQueue : List (ℕ × ℕ)
  timers : List (ℕ × ℚ)
  nextId : ℕ
  recorderActive : Option Bool
  recordedChunks : List ℕ
  exportDest : Bool
  downloads : List (List ℕ × String)
deriving DecidableEq

/-- `stopAudio` (`Player.tsx` lines 140-145): call `stop()` on the source held
in `audioSourceRef` and clear the ref.  Per Web Audio semantics, stopping a
source that is still playing fires its `onended` event (queued here); stopping
one that already ended does nothing further (the `try/catch` swallows any
error). -/
def stopAudio (s : PState) : PState :=
  match s.audioSource with
  | none => s
  | some id =>
    match s.playingSrcs.find? (fun p => p.1 == id) with
    | some hit =>
      { s with audioSource := none
               playingSrcs := s.playingSrcs.filter (fun p => p.1 != id)
               endedQueue := s.endedQueue ++ [(hit.1, hit.2)] }
    | none => { s with audioSource := none }

/-- `recorder.onstop` (`Player.tsx` lines 241-255): build one Blob from the
recorded chunks in arrival order, trigger one download named by
`exportFilename`, then clear the exporting flag and the export audio
destination.  The chunk buffer is left as is (it is reset by the next
`handleExport`); the recorder itself transitions to inactive. -/
def recorderOnStop (s : PState) : PState :=
  { s with downloads :=
             s.downloads ++ [(s.recordedChunks, exportFilename s.resolution s.fps)]
           isExporting := false
           exportDest := false
           recorderActive := some false }

/-- `finishExport` (`Player.tsx` lines 267-271): stop the recorder if it is
not inactive, which runs its `onstop` handler. -/
def finishExport (s : PState) : PState :=
  match s.recorderActive with
  | some true => recorderOnStop s
  | _ => s

/-- Convenience constructor for concrete scenes. -/
def mkScene (id : ℕ) (text : String) (hasAudio : Bool) : Scene :=
  { id := id
    text := text
    narration := text
    imageData := none
    image := none
    video := none
    hasAudioBuffer := hasAudio }

/-- The audio branch of `playScene` (`Player.tsx` lines 165-181): create a
buffer source for the scene, register its `onended` closure (which captured
`index`), start it and store it in `audioSourceRef`. -/
def startSource (s : PState) (index : ℕ) : PState :=
  { s with audioSource := some s.nextId
           playingSrcs := (s.nextId, index) :: s.playingSrcs
           nextId := s.nextId + 1 }

/-- The silent branch of `playScene` (`Player.tsx` lines 182-185):
`setTimeout(() => playScene(index + 1), 3000 / playbackSpeed)`. -/
def scheduleFallback (s : PState) (index : ℕ) : PState :=
  { s with timers := (index + 1, 3000 / s.playbackSpeed) :: s.timers }

/-- `playScene` (`Player.tsx` lines 147-186).  Past the end of the scene list:
clear the playing flag, reset the cursor to 0 and, when exporting, finalize
(`isExportingRef` is untouched by the two setters, so the check reads the
component flag).  Otherwise: set the cursor, stop the previous source, then
either start a new audio source whose `onended` closure captures this index
(`playScene(index+1)`) or, for a silent scene, schedule the fallback timer.
No `clearTimeout` exists anywhere in the source. -/
def playScene (s : PState) (index : ℕ) : PState :=
  if s.scenes.length ≤ index then
    if s.isExporting then
      finishExport { s with isPlaying := false, currentSceneIdx := 0 }
    else { s with isPlaying := false, currentSceneIdx := 0 }
  else if (s.scenes.getD index (mkScene 0 "" false)).hasAudioBuffer then
    startSource (stopAudio { s with currentSceneIdx := index }) index
  else
    scheduleFallback (stopAudio { s with currentSceneIdx := index }) index

/-- `togglePlay` (`Player.tsx` lines 188-198): pause stops the active source
immediately; play starts `playScene` at the current cursor.  (The audio-device
resume call has no bearing on the modelled state.) -/
def togglePlay (s : PState) : PState :=
  if s.isPlaying then stopAudio { s with isPlaying := false }
  else playScene { s with isPlaying := true } s.currentSceneIdx

/-- `handleExport` (`Player.tsx` lines 202-265): stop current playback, reset
the cursor, raise the exporting flag, create the export audio destination and
a recorder with an empty chunk buffer, start recording, then (after the 100 ms
settling delay, modelled as immediate since its callback is unconditional)
set the playing flag and start playback from scene 0. -/
def handleExport (s : PState) : PState :=
  playScene
    { stopAudio s with
        isPlaying := true
        currentSceneIdx := 0
        isExporting := true
        exportDest := true
        recorderActive := some true
        recordedChunks := [] } 0

/-- Export start as invocable from the UI: the Download button carries
`disabled={isExporting}` (`Player.tsx` line 358; likewise part_000 line 439),
so the click handler `handleExport` can only run while no export is active. -/
def exportStart (s : PState) : PState :=
  if s.isExporting then s else handleExport s

/-- Environment event: source `id` reaches its natural end of stream; its
`onended` fires. -/
def naturalEnd (s : PState) (id : ℕ) : PState :=
  match s.playingSrcs.find? (fun p => p.1 == id) with
  | some hit =>
    { s with playingSrcs := s.playingSrcs.filter (fun p => p.1 != id)
             endedQueue := s.endedQueue ++ [(hit.1, hit.2)] }
  | none => s

/-- Run the oldest pending `onended` callback: `() => playScene(index + 1)`
(`Player.tsx` lines 176-179). -/
def processEnded (s : PState) : PState :=
  match s.endedQueue with
  | [] => s
  | e :: rest => playScene { s with endedQueue := rest } (e.2 + 1)

/-- Fire a pending `setTimeout` continuation: `() => playScene(index + 1)`
(`Player.tsx` line 184); the target index was stored at scheduling time. -/
def fireTimer (s : PState) : PState :=
  match s.timers with
  | [] => s
  | t :: rest => playScene { s with timers := rest } t.1

/-- The natural schedule: the unique pending continuation fires - the active
source ends naturally and its callback runs, or else the pending fallback
timer fires.  This is the only schedule in which no source is ever stopped
early. -/
def natStep (s : PState) : PState :=
  match s.playingSrcs with
  | p :: _ => processEnded (naturalEnd s p.1)
  | [] => fireTimer s

/-- Scene indices visited along the natural schedule while the sequencer is
playing (fuel-bounded). -/
def natTrace : ℕ → PState → List ℕ
  | 0, _ => []
  | fuel + 1, s =>
    if s.isPlaying then s.currentSceneIdx :: natTrace fuel (natStep s) else []

/-- Component state right after mount (`Player.tsx` lines 17-40): not playing,
cursor 0, defaults 1080p / 30 fps / speed 1, no export in flight, empty refs. -/
def initState (scenes : List Scene) : PState :=
  { scenes := scenes
    isPlaying := false
    currentSceneIdx := 0
    playbackSpeed := 1
    resolution := .r1080
    fps := 30
    isExporting := false
    audioSource := none
    playingSrcs := []
    endedQueue := []
    timers := []
    nextId := 0
    recorderActive := none
    recordedChunks := []
    exportDest := false
    downloads := [] }

/-! ## Audio decoding, from `src/services/audioUtils.ts` -/

/-- Zero-pad an odd-length byte array by one byte (`audioUtils.ts` lines
23-28). -/
def padEven (data : List ℕ) : List ℕ :=
  if data.length % 2 = 1 then data ++ [0] else data

/-- Reinterpret two bytes as a little-endian signed 16-bit integer, as the
`Int16Array` view does (`audioUtils.ts` line 31). -/
def int16OfBytes (lo hi : ℕ) : ℤ :=
  let v := lo + 256 * hi
  if v < 32768 then (v : ℤ) else (v : ℤ) - 65536

/-- The whole `Int16Array` view over consecutive byte pairs. -/
def toInt16 : List ℕ → List ℤ
  | lo :: hi :: rest => int16OfBytes lo hi :: toInt16 rest
  | _ => []

/-- The decoded audio buffer: one `Float32Array` per channel (values here in
`ℚ`), plus the sample rate the buffer was created with. -/
structure AudioBufferModel where
  sampleRate : ℕ
  channels : List (List ℚ)
deriving DecidableEq

/-- `decodeAudioData` (`audioUtils.ts` lines 17-47): pad to even length, view
as 16-bit samples, allocate `dataInt16.length / numChannels` frames (the
platform constructor truncates a fractional length), and fill channel `ch`
with `dataInt16[i * numChannels + ch] / 32768`. -/
def decodeAudioData (data : List ℕ) (sampleRate : ℕ) (numChannels : ℕ) :
    AudioBufferModel :=
  let dataInt16 := toInt16 (padEven data)
  let frames := dataInt16.length / numChannels
  { sampleRate := sampleRate
    channels :=
      (List.range numChannels).map fun ch =>
        (List.range frames).map fun i =>
          ((dataInt16.getD (i * numChannels + ch) 0 : ℤ) : ℚ) / 32768 }

/-- Operation used to recognize subtitle output among draw commands. -/
def isTextOp : DrawOp → Bool
  | .text _ _ _ => true
  | _ => false

/-- A concrete text-measurement model (width = total characters plus one space
per word), used to instantiate the abstract `measure` parameter on concrete
inputs. -/
def wlen : List String → ℚ :=
  fun l => (((l.map String.length).sum + l.length : ℕ) : ℚ)

/-! ## Field bookkeeping lemmas for the state machine -/

lemma stopAudio_fields (s : PState) :
    (stopAudio s).scenes = s.scenes ∧ (stopAudio s).isPlaying = s.isPlaying ∧
    (stopAudio s).currentSceneIdx = s.currentSceneIdx ∧
    (stopAudio s).playbackSpeed = s.playbackSpeed ∧
    (stopAudio s).resolution = s.resolution ∧ (stopAudio s).fps = s.fps ∧
    (stopAudio s).isExporting = s.isExporting ∧ (stopAudio s).timers = s.timers ∧
    (stopAudio s).nextId = s.nextId ∧ (stopAudio s).recorderActive = s.recorderActive ∧
    (stopAudio s).recordedChunks = s.recordedChunks ∧
    (stopAudio s).exportDest = s.exportDest ∧ (stopAudio s).downloads = s.downloads := by
  unfold stopAudio
  split
  · exact ⟨rfl, rfl, rfl, rfl, rfl, rfl, rfl, rfl, rfl, rfl, rfl, rfl, rfl⟩
  · split
    · exact ⟨rfl, rfl, rfl, rfl, rfl, rfl, rfl, rfl, rfl, rfl, rfl, rfl, rfl⟩
    · exact ⟨rfl, rfl, rfl, rfl, rfl, rfl, rfl, rfl, rfl, rfl, rfl, rfl, rfl⟩

lemma stopAudio_of_empty (s : PState) (h : s.playingSrcs = []) :
    stopAudio s = { s with audioSource := none } := by
  unfold stopAudio
  split
  next heq => rw [← heq]
  next id heq =>
    rw [h]
    exact rfl

lemma finishExport_fields (s : PState) :
    (finishExport s).scenes = s.scenes ∧ (finishExport s).isPlaying = s.isPlaying ∧
    (finishExport s).currentSceneIdx = s.currentSceneIdx ∧
    (finishExport s).playbackSpeed = s.playbackSpeed ∧
    (finishExport s).resolution = s.resolution ∧ (finishExport s).fps = s.fps ∧
    (finishExport s).audioSource = s.audioSource ∧
    (finishExport s).playingSrcs = s.playingSrcs ∧
    (finishExport s).endedQueue = s.endedQueue ∧
    (finishExport s).timers = s.timers ∧ (finishExport s).nextId = s.nextId ∧
    (finishExport s).recordedChunks = s.recordedChunks := by
  unfold finishExport
  split
  · exact ⟨rfl, rfl, rfl, rfl, rfl, rfl, rfl, rfl, rfl, rfl, rfl, rfl⟩
  · exact ⟨rfl, rfl, rfl, rfl, rfl, rfl, rfl, rfl, rfl, rfl, rfl, rfl⟩

lemma playScene_preserved (s : PState) (i : ℕ) :
    (playScene s i).scenes = s.scenes ∧
    (playScene s i).playbackSpeed = s.playbackSpeed ∧
    (playScene s i).resolution = s.resolution ∧ (playScene s i).fps = s.fps ∧
    (playScene s i).recordedChunks = s.recordedChunks := by
  unfold playScene
  by_cases hlen : s.scenes.length ≤ i
  · rw [if_pos hlen]
    by_cases hex : s.isExporting
    · rw [if_pos hex]
      obtain ⟨h1, _, _, h4, h5, h6, _, _, _, _, _, h12⟩ :=
        finishExport_fields { s with isPlaying := false, currentSceneIdx := 0 }
      exact ⟨h1, h4, h5, h6, h12⟩
    · rw [if_neg hex]
      exact ⟨rfl, rfl, rfl, rfl, rfl⟩
  · rw [if_neg hlen]
    obtain ⟨h1, _, _, h4, h5, h6, _, _, _, _, h11, _, _⟩ :=
      stopAudio_fields { s with currentSceneIdx := i }
    split
    · exact ⟨h1, h4, h5, h6, h11⟩
    · exact ⟨h1, h4, h5, h6, h11⟩

lemma playScene_terminal (s : PState) (i : ℕ) (h : s.scenes.length ≤ i)
    (hex : s.isExporting = false) :
    playScene s i = { s with isPlaying := false, currentSceneIdx := 0 } := by
  unfold playScene
  rw [if_pos h, if_neg (by simp [hex])]

lemma playScene_clean (s : PState) (i : ℕ) (hi : i < s.scenes.length)
    (hsrc : s.playingSrcs = []) :
    playScene s i =
      if (s.scenes.getD i (mkScene 0 "" false)).hasAudioBuffer = true then
        { s with currentSceneIdx := i, audioSource := some s.nextId,
                 playingSrcs := [(s.nextId, i)], nextId := s.nextId + 1 }
      else
        { s with currentSceneIdx := i, audioSource := none,
                 timers := (i + 1, 3000 / s.playbackSpeed) :: s.timers } := by
  unfold playScene
  rw [if_neg (by omega)]
  rw [stopAudio_of_empty { s with currentSceneIdx := i } hsrc]
  split
  · simp [startSource, hsrc]
  · simp [scheduleFallback]

lemma natStep_single (s : PState) (id j : ℕ)
    (hp : s.playingSrcs = [(id, j)]) (hq : s.endedQueue = []) :
    natStep s = playScene { s with playingSrcs := [], endedQueue := [] } (j + 1) := by
  simp [natStep, naturalEnd, processEnded, hp, hq]

lemma natStep_timer (s : PState) (j : ℕ) (d : ℚ) (rest : List (ℕ × ℚ))
    (hp : s.playingSrcs = []) (ht : s.timers = (j, d) :: rest) :
    natStep s = playScene { s with timers := rest } j := by
  simp [natStep, fireTimer, hp, ht]

lemma togglePlay_start (s : PState) (h : s.isPlaying = false) :
    togglePlay s = playScene { s with isPlaying := true } s.currentSceneIdx := by
  simp [togglePlay, h]

lemma natTrace_playing (fuel : ℕ) (s : PState) (h : s.isPlaying = true) :
    natTrace (fuel + 1) s = s.currentSceneIdx :: natTrace fuel (natStep s) := by
  simp [natTrace, h]

lemma natTrace_stopped (fuel : ℕ) (s : PState) (h : s.isPlaying = false) :
    natTrace fuel s = [] := by
  cases fuel <;> simp [natTrace, h]

/-- The natural full pass, one scene at a time: from a clean playing state
(`i + k` scenes total, no pending source, event or timer), `playScene i`
followed by the natural schedule visits `i, i+1, ..., i+k-1` and ends stopped
with the cursor reset to 0. -/
lemma natRun : ∀ (k : ℕ) (s : PState) (i : ℕ),
    i + k = s.scenes.length →
    s.isPlaying = true → s.isExporting = false →
    s.playingSrcs = [] → s.endedQueue = [] → s.timers = [] →
    natTrace (k + 1) (playScene s i) = List.range' i k ∧
    (natStep^[k] (playScene s i)).isPlaying = false ∧
    (natStep^[k] (playScene s i)).currentSceneIdx = 0 := by
  intro k
  induction k with
  | zero =>
    intro s i hlen hp hex hsrc hq ht
    rw [playScene_terminal s i (by omega) hex]
    exact ⟨natTrace_stopped 1 _ rfl, rfl, rfl⟩
  | succ k ih =>
    intro s i hlen hp hex hsrc hq ht
    have hi : i < s.scenes.length := by omega
    rw [playScene_clean s i hi hsrc]
    by_cases ha : (s.scenes.getD i (mkScene 0 "" false)).hasAudioBuffer = true
    · rw [if_pos ha]
      set X : PState :=
        { s with currentSceneIdx := i, audioSource := some s.nextId,
                 playingSrcs := [(s.nextId, i)], nextId := s.nextId + 1 } with hX
      have hstep : natStep X =
          playScene
            { s with currentSceneIdx := i, audioSource := some s.nextId,
                     playingSrcs := [], endedQueue := [], nextId := s.nextId + 1 }
            (i + 1) :=
        natStep_single X s.nextId i (by rw [hX]) hq
      have hIH := ih
        ({ s with currentSceneIdx := i, audioSource := some s.nextId,
                  playingSrcs := [], endedQueue := [], nextId := s.nextId + 1 } : PState)
        (i + 1) (show i + 1 + k = s.scenes.length by omega) hp hex rfl rfl ht
      have hplay : natTrace (k + 1 + 1) X =
          X.currentSceneIdx :: natTrace (k + 1) (natStep X) :=
        natTrace_playing (k + 1) X hp
      refine ⟨?_, ?_, ?_⟩
      · rw [hplay, hstep, hIH.1]
        exact rfl
      · rw [Function.iterate_succ_apply, hstep]
        exact hIH.2.1
      · rw [Function.iterate_succ_apply, hstep]
        exact hIH.2.2
    · rw [if_neg ha]
      set X : PState :=
        { s with currentSceneIdx := i, audioSource := none,
                 timers := (i + 1, 3000 / s.playbackSpeed) :: s.timers } with hX
      have hstep : natStep X =
          playScene
            { s with currentSceneIdx := i, audioSource := none, timers := s.timers }
            (i + 1) :=
        natStep_timer X (i + 1) (3000 / s.playbackSpeed) s.timers hsrc (by rw [hX])
      have hIH := ih
        ({ s with currentSceneIdx := i, audioSource := none, timers := s.timers } : PState)
        (i + 1) (show i + 1 + k = s.scenes.length by omega) hp hex hsrc hq ht
      have hplay : natTrace (k + 1 + 1) X =
          X.currentSceneIdx :: natTrace (k + 1) (natStep X) :=
        natTrace_playing (k + 1) X hp
      refine ⟨?_, ?_, ?_⟩
      · rw [hplay, hstep, hIH.1]
        exact rfl
      · rw [Function.iterate_succ_apply, hstep]
        exact hIH.2.1
      · rw [Function.iterate_succ_apply, hstep]
        exact hIH.2.2

/-- Claim C1: for every scene sequence of length N >= 1, starting the
sequencer at index 0 and letting every scene source (or fallback timer)
complete naturally visits every scene index exactly once in ascending order
0..N-1, after which the sequencer is stopped (not playing) with the scene
cursor reset to 0. -/
theorem playback_full_pass (scenes : List Scene) (hN : 1 ≤ scenes.length) :
    natTrace (scenes.length + 1) (togglePlay (initState scenes)) =
      List.range scenes.length ∧
    (natStep^[scenes.length] (togglePlay (initState scenes))).isPlaying = false ∧
    (natStep^[scenes.length] (togglePlay (initState scenes))).currentSceneIdx = 0 := by
  rw [togglePlay_start _ rfl]
  have h := natRun scenes.length { initState scenes with isPlaying := true } 0
    (Nat.zero_add _) rfl rfl rfl rfl rfl
  refine ⟨?_, h.2.1, h.2.2⟩
  rw [List.range_eq_range']
  exact h.1

/-- Concrete three-scene store used to instantiate claim C1. -/
def demoScenes : List Scene :=
  [mkScene 0 "a" true, mkScene 1 "b" false, mkScene 2 "c" true]

theorem playback_full_pass_witness :
    1 ≤ demoScenes.length ∧
    (natTrace (demoScenes.length + 1) (togglePlay (initState demoScenes)) =
        List.range demoScenes.length ∧
      (natStep^[demoScenes.length] (togglePlay (initState demoScenes))).isPlaying = false ∧
      (natStep^[demoScenes.length] (togglePlay (initState demoScenes))).currentSceneIdx = 0) :=
  ⟨by decide, playback_full_pass demoScenes (by decide)⟩

/-- Claim C2 evidence: the code lets sequencer-issued stops and stale fallback
timers advance the sequencer.  First scenario: two narrated scenes, playback
started, then the user pauses; `stopAudio` fires the retired source's
`onended`, whose callback advances to scene 1 and starts its narration even
though the component shows paused.  Second scenario: a silent scene schedules
a fallback timer, the user seeks to scene 2, and the never-cancelled timer
later fires and yanks the cursor to scene 1. -/
theorem sequencer_misadvance_on_stop :
    (togglePlay (togglePlay (initState
        [mkScene 0 "a" true, mkScene 1 "b" true]))).endedQueue = [(0, 0)] ∧
    (processEnded (togglePlay (togglePlay (initState
        [mkScene 0 "a" true, mkScene 1 "b" true])))).currentSceneIdx = 1 ∧
    (processEnded (togglePlay (togglePlay (initState
        [mkScene 0 "a" true, mkScene 1 "b" true])))).audioSource = some 1 ∧
    (processEnded (togglePlay (togglePlay (initState
        [mkScene 0 "a" true, mkScene 1 "b" true])))).isPlaying = false ∧
    (playScene (togglePlay (initState
        [mkScene 0 "a" false, mkScene 1 "b" true, mkScene 2 "c" true])) 2).currentSceneIdx
      = 2 ∧
    ((playScene (togglePlay (initState
        [mkScene 0 "a" false, mkScene 1 "b" true, mkScene 2 "c" true])) 2).timers.map
          Prod.fst)
      = [1] ∧
    (fireTimer (playScene (togglePlay (initState
        [mkScene 0 "a" false, mkScene 1 "b" true, mkScene 2 "c" true])) 2)).currentSceneIdx
      = 1 := by
  decide

/-- Claim C3: invoking export start while an export session is active is
rejected; no second recorder or capture sink is created, no extra download is
produced, and the active session state is untouched. -/
theorem export_single_flight (s : PState) (h : s.isExporting = true) :
    exportStart s = s ∧
    (exportStart s).recorderActive = s.recorderActive ∧
    (exportStart s).exportDest = s.exportDest ∧
    (exportStart s).recordedChunks = s.recordedChunks ∧
    (exportStart s).downloads = s.downloads := by
  have he : exportStart s = s := by simp [exportStart, h]
  exact ⟨he, by rw [he], by rw [he], by rw [he], by rw [he]⟩

/-- A state with an export session in flight, for claim C3. -/
def exportingState : PState :=
  { initState [mkScene 0 "a" true] with
      isExporting := true
      exportDest := true
      recorderActive := some true }

theorem export_single_flight_witness :
    exportingState.isExporting = true ∧
    (exportStart exportingState = exportingState ∧
      (exportStart exportingState).recorderActive = exportingState.recorderActive ∧
      (exportStart exportingState).exportDest = exportingState.exportDest ∧
      (exportStart exportingState).recordedChunks = exportingState.recordedChunks ∧
      (exportStart exportingState).downloads = exportingState.downloads) :=
  ⟨rfl, export_single_flight exportingState rfl⟩

/-! ## Scene-store immutability helpers -/

lemma togglePlay_scenes (s : PState) : (togglePlay s).scenes = s.scenes := by
  unfold togglePlay
  split
  · exact (stopAudio_fields _).1
  · exact (playScene_preserved _ _).1

lemma handleExport_scenes (s : PState) : (handleExport s).scenes = s.scenes := by
  unfold handleExport
  exact (playScene_preserved _ _).1.trans (stopAudio_fields s).1

lemma exportStart_scenes (s : PState) : (exportStart s).scenes = s.scenes := by
  unfold exportStart
  split
  · rfl
  · exact handleExport_scenes s

lemma naturalEnd_scenes (s : PState) (id : ℕ) : (naturalEnd s id).scenes = s.scenes := by
  unfold naturalEnd
  split <;> rfl

lemma processEnded_scenes (s : PState) : (processEnded s).scenes = s.scenes := by
  unfold processEnded
  split
  · rfl
  · exact (playScene_preserved _ _).1

lemma fireTimer_scenes (s : PState) : (fireTimer s).scenes = s.scenes := by
  unfold fireTimer
  split
  · rfl
  · exact (playScene_preserved _ _).1

lemma natStep_scenes (s : PState) : (natStep s).scenes = s.scenes := by
  unfold natStep
  split
  · exact (processEnded_scenes _).trans (naturalEnd_scenes _ _)
  · exact fireTimer_scenes s

/-- Claim C9: no operation of the playback/export core changes the scene
store - the scene list (hence its length and every scene record in it) is the
same before and after play, pause, seek (`playScene` at any index), the
`onended` and timer callbacks, export start and export finalization.  The
compositor functions (`drawScene`, `drawFrame`) are pure and take no state at
all. -/
theorem scene_store_immutable (s : PState) (i srcId : ℕ) :
    (stopAudio s).scenes = s.scenes ∧
    (playScene s i).scenes = s.scenes ∧
    (togglePlay s).scenes = s.scenes ∧
    (exportStart s).scenes = s.scenes ∧
    (handleExport s).scenes = s.scenes ∧
    (finishExport s).scenes = s.scenes ∧
    (recorderOnStop s).scenes = s.scenes ∧
    (naturalEnd s srcId).scenes = s.scenes ∧
    (processEnded s).scenes = s.scenes ∧
    (fireTimer s).scenes = s.scenes ∧
    (natStep s).scenes = s.scenes :=
  ⟨(stopAudio_fields s).1, (playScene_preserved s i).1, togglePlay_scenes s,
   exportStart_scenes s, handleExport_scenes s, (finishExport_fields s).1,
   rfl, naturalEnd_scenes s srcId, processEnded_scenes s, fireTimer_scenes s,
   natStep_scenes s⟩

/-! ## Cursor and fallback-timer lemmas -/

lemma playScene_idx (s : PState) (i : ℕ) (hi : i < s.scenes.length) :
    (playScene s i).currentSceneIdx = i := by
  unfold playScene
  rw [if_neg (by omega)]
  split
  · exact (stopAudio_fields _).2.2.1
  · exact (stopAudio_fields _).2.2.1

/-- Claim C6: a scene without narration audio schedules the fallback hold of
exactly `3000 / playbackSpeed` milliseconds, and when that timer fires the
sequencer advances to the next scene. -/
theorem silent_scene_fallback (s : PState) (i : ℕ) (hi : i < s.scenes.length)
    (hs : (s.scenes.getD i (mkScene 0 "" false)).hasAudioBuffer = false) :
    (playScene s i).timers = (i + 1, 3000 / s.playbackSpeed) :: s.timers ∧
    (i + 1 < s.scenes.length →
      (fireTimer (playScene s i)).currentSceneIdx = i + 1) := by
  have hne : ¬((s.scenes.getD i (mkScene 0 "" false)).hasAudioBuffer = true) := by
    rw [hs]
    exact Bool.false_ne_true
  have h1 : playScene s i =
      scheduleFallback (stopAudio { s with currentSceneIdx := i }) i := by
    unfold playScene
    rw [if_neg (by omega), if_neg hne]
  constructor
  · rw [h1]
    show (i + 1, 3000 / (stopAudio { s with currentSceneIdx := i }).playbackSpeed) ::
        (stopAudio { s with currentSceneIdx := i }).timers = _
    rw [(stopAudio_fields _).2.2.2.1, (stopAudio_fields _).2.2.2.2.2.2.2.1]
  · intro hlt
    rw [h1]
    have h2 : fireTimer (scheduleFallback (stopAudio { s with currentSceneIdx := i }) i) =
        playScene (stopAudio { s with currentSceneIdx := i }) (i + 1) := by
      unfold fireTimer scheduleFallback
      exact rfl
    rw [h2]
    apply playScene_idx
    rw [(stopAudio_fields _).1]
    exact hlt

/-- A two-scene state at 1.5x speed whose first scene has no narration, for
claim C6. -/
def demoSilent : PState :=
  { initState [mkScene 0 "quiet" false, mkScene 1 "b" true] with playbackSpeed := 3 / 2 }

theorem silent_scene_fallback_witness :
    0 < demoSilent.scenes.length ∧
    (demoSilent.scenes.getD 0 (mkScene 0 "" false)).hasAudioBuffer = false ∧
    ((playScene demoSilent 0).timers =
        (0 + 1, 3000 / demoSilent.playbackSpeed) :: demoSilent.timers ∧
      (0 + 1 < demoSilent.scenes.length →
        (fireTimer (playScene demoSilent 0)).currentSceneIdx = 0 + 1)) ∧
    3000 / demoSilent.playbackSpeed = (2000 : ℚ) :=
  ⟨by decide, by decide, silent_scene_fallback demoSilent 0 (by decide) (by decide),
   by norm_num [demoSilent, initState]⟩

/-- Claim C5: cover-fit with `ratio = max(W/sourceW, H/sourceH)`, centered,
fully covers the target rectangle on every edge and preserves the source
aspect ratio. -/
theorem cover_fit_spec (w h sourceW sourceH : ℚ)
    (hw : 0 < w) (hh : 0 < h) (hsw : 0 < sourceW) (hsh : 0 < sourceH) :
    (drawImageCover w h sourceW sourceH).offsetX ≤ 0 ∧
    (drawImageCover w h sourceW sourceH).offsetY ≤ 0 ∧
    w ≤ (drawImageCover w h sourceW sourceH).offsetX +
        (drawImageCover w h sourceW sourceH).newW ∧
    h ≤ (drawImageCover w h sourceW sourceH).offsetY +
        (drawImageCover w h sourceW sourceH).newH ∧
    (drawImageCover w h sourceW sourceH).newW /
        (drawImageCover w h sourceW sourceH).newH = sourceW / sourceH := by
  have hr1 : w / sourceW ≤ max (w / sourceW) (h / sourceH) := le_max_left _ _
  have hr2 : h / sourceH ≤ max (w / sourceW) (h / sourceH) := le_max_right _ _
  have hrpos : 0 < max (w / sourceW) (h / sourceH) :=
    lt_of_lt_of_le (div_pos hw hsw) hr1
  have hwle : w ≤ sourceW * max (w / sourceW) (h / sourceH) := by
    rw [mul_comm]
    exact (div_le_iff hsw).mp hr1
  have hhle : h ≤ sourceH * max (w / sourceW) (h / sourceH) := by
    rw [mul_comm]
    exact (div_le_iff hsh).mp hr2
  simp only [drawImageCover]
  refine ⟨by linarith, by linarith, by linarith, by linarith, ?_⟩
  rw [mul_comm sourceW, mul_comm sourceH,
    mul_div_mul_left _ _ (ne_of_gt hrpos)]

theorem cover_fit_spec_witness :
    (0 : ℚ) < 1920 ∧ (0 : ℚ) < 1080 ∧ (0 : ℚ) < 640 ∧ (0 : ℚ) < 480 ∧
    ((drawImageCover 1920 1080 640 480).offsetX ≤ 0 ∧
      (drawImageCover 1920 1080 640 480).offsetY ≤ 0 ∧
      (1920 : ℚ) ≤ (drawImageCover 1920 1080 640 480).offsetX +
          (drawImageCover 1920 1080 640 480).newW ∧
      (1080 : ℚ) ≤ (drawImageCover 1920 1080 640 480).offsetY +
          (drawImageCover 1920 1080 640 480).newH ∧
      (drawImageCover 1920 1080 640 480).newW /
          (drawImageCover 1920 1080 640 480).newH = (640 : ℚ) / 480) :=
  ⟨by norm_num, by norm_num, by norm_num, by norm_num,
   cover_fit_spec 1920 1080 640 480 (by norm_num) (by norm_num) (by norm_num)
     (by norm_num)⟩

/-! ## Word-wrap lemmas -/

lemma wrapGo_join (measure : List String → ℚ) (maxW : ℚ) :
    ∀ (ws line : List String), (wrapGo measure maxW ws line).join = line ++ ws := by
  intro ws
  induction ws with
  | nil => intro line; simp [wrapGo]
  | cons w rest ih =>
    intro line
    unfold wrapGo
    split
    · simp [ih]
    · simp [ih]

lemma wrapGo_width (measure : List String → ℚ) (maxW : ℚ) :
    ∀ (ws line : List String), (measure line ≤ maxW ∨ ∃ w, line = [w]) →
      ∀ l ∈ wrapGo measure maxW ws line, maxW < measure l → ∃ w, l = [w] := by
  intro ws
  induction ws with
  | nil =>
    intro line hline l hl hlt
    simp [wrapGo] at hl
    subst hl
    rcases hline with h | h
    · exact absurd hlt (not_lt.mpr h)
    · exact h
  | cons w rest ih =>
    intro line hline l hl hlt
    unfold wrapGo at hl
    split at hl
    · rcases List.mem_cons.mp hl with rfl | hmem
      · rcases hline with h | h
        · exact absurd hlt (not_lt.mpr h)
        · exact h
      · exact ih [w] (Or.inr ⟨w, rfl⟩) l hmem hlt
    · next hcond => exact ih (line ++ [w]) (Or.inl (not_lt.mp hcond)) l hl hlt

lemma wrapGo_ne_nil (measure : List String → ℚ) (maxW : ℚ) :
    ∀ (ws line : List String), wrapGo measure maxW ws line ≠ [] := by
  intro ws
  induction ws with
  | nil => intro line; simp [wrapGo]
  | cons w rest ih =>
    intro line
    unfold wrapGo
    split
    · simp
    · exact ih (line ++ [w])

lemma wrapWords_ne_nil (measure : List String → ℚ) (maxW : ℚ) (ws : List String) :
    wrapWords measure maxW ws ≠ [] := by
  cases ws with
  | nil => simp [wrapWords]
  | cons w rest => exact wrapGo_ne_nil measure maxW rest [w]

/-- Claim C4: the greedy word wrap places every word, in order, flushing the
final partial line (the flattened output is exactly the input word list), and
any produced line whose measured width exceeds the maximum is a single
unsplit word - which is still placed, never dropped.  `measure` abstracts
`ctx.measureText` applied to the rendered line (each word followed by one
space); `words` is `text.split(' ')`, which is never empty. -/
theorem word_wrap_spec (measure : List String → ℚ) (maxW : ℚ)
    (words : List String) (hne : words ≠ []) :
    (wrapWords measure maxW words).join = words ∧
    ∀ l ∈ wrapWords measure maxW words, maxW < measure l → ∃ w, l = [w] := by
  match words, hne with
  | w :: rest, _ =>
    constructor
    · show (wrapGo measure maxW rest [w]).join = w :: rest
      rw [wrapGo_join]
      rfl
    · exact wrapGo_width measure maxW rest [w] (Or.inr ⟨w, rfl⟩)

theorem word_wrap_spec_witness :
    (["abcdefgh", "x"] : List String) ≠ [] ∧
    (wrapWords wlen 5 ["abcdefgh", "x"]).join = ["abcdefgh", "x"] ∧
    (∃ w, (["abcdefgh"] : List String) = [w]) :=
  ⟨by decide, (word_wrap_spec wlen 5 ["abcdefgh", "x"] (by decide)).1,
   (word_wrap_spec wlen 5 ["abcdefgh", "x"] (by decide)).2 ["abcdefgh"]
     (by decide) (by decide)⟩

/-! ## Missing-asset compositing -/

/-- A scene with subtitle text but no visual asset, for claim C7. -/
def c7scene : Scene := mkScene 0 "The end" false

/-- Claim C7 counterexample: in the live `Player` compositor (`drawScene`),
a scene without a visual asset yields only the black fill - no subtitle text
operation is emitted, because the whole overlay is nested inside the
image-rendering closure. -/
theorem black_frame_counterexample :
    drawScene wlen (fun _ => (1, 1)) [c7scene] 0 1920 1080 =
      [DrawOp.fill 0 0 1920 1080] ∧
    (drawScene wlen (fun _ => (1, 1)) [c7scene] 0 1920 1080).all
      (fun op => !isTextOp op) = true := by
  exact ⟨rfl, rfl⟩

lemma drawSubtitles_has_text (measure : List String → ℚ) (t : String) (w h : ℚ) :
    ∃ op ∈ drawSubtitles measure t w h, isTextOp op = true := by
  obtain ⟨l0, rest, hl⟩ :=
    List.exists_cons_of_ne_nil (wrapWords_ne_nil measure (w * 8 / 10) (t.splitOn " "))
  simp only [drawSubtitles]
  rw [hl, List.enum_cons]
  exact ⟨_, List.mem_cons_of_mem _ (List.mem_map_of_mem _ (List.mem_cons_self _ _)), rfl⟩

/-- Claim C7 (amended): when the visual asset is absent, the live `Player`
compositor (`drawScene`, `Player.tsx`) emits the solid black frame and skips
the subtitle overlay entirely, while the `VideoPlayer` compositor
(`drawFrame`, part_000) draws the subtitle text over the black frame as the
spec describes. -/
theorem black_frame_amended (measure : List String → ℚ) (imgDims : String → ℚ × ℚ)
    (scenes : List Scene) (i : ℕ) (w h : ℚ) (scene : Scene)
    (hget : scenes.get? i = some scene) (hasset : scene.imageData = none)
    (m2 : List String → ℚ) (idm2 : String → ℚ × ℚ) (ic : Bool) (vd : ℚ × ℚ)
    (vr : Bool) (scene2 : Scene) (h2v : scene2.video = none)
    (h2i : scene2.image = none) :
    drawScene measure imgDims scenes i w h = [DrawOp.fill 0 0 w h] ∧
    drawFrame m2 idm2 ic vd vr scene2 w h =
      DrawOp.fill 0 0 w h :: drawSubtitles m2 scene2.narration w h ∧
    ∃ op ∈ drawFrame m2 idm2 ic vd vr scene2 w h, isTextOp op = true := by
  have hframe : drawFrame m2 idm2 ic vd vr scene2 w h =
      DrawOp.fill 0 0 w h :: drawSubtitles m2 scene2.narration w h := by
    simp [drawFrame, h2v, h2i]
  refine ⟨?_, hframe, ?_⟩
  · have hget2 : scenes[i]? = some scene := by simpa using hget
    simp [drawScene, hget2, hasset]
  · rw [hframe]
    obtain ⟨op, hmem, hop⟩ := drawSubtitles_has_text m2 scene2.narration w h
    exact ⟨op, List.mem_cons_of_mem _ hmem, hop⟩

theorem black_frame_amended_witness :
    ([c7scene].get? 0 = some c7scene) ∧ c7scene.imageData = none ∧
    c7scene.video = none ∧ c7scene.image = none ∧
    (drawScene wlen (fun _ => (1, 1)) [c7scene] 0 1920 1080 =
        [DrawOp.fill 0 0 1920 1080] ∧
      drawFrame wlen (fun _ => (1, 1)) true (1, 1) true c7scene 1920 1080 =
        DrawOp.fill 0 0 1920 1080 :: drawSubtitles wlen c7scene.narration 1920 1080 ∧
      ∃ op ∈ drawFrame wlen (fun _ => (1, 1)) true (1, 1) true c7scene 1920 1080,
        isTextOp op = true) :=
  ⟨rfl, rfl, rfl, rfl,
   black_frame_amended wlen (fun _ => (1, 1)) [c7scene] 0 1920 1080 c7scene rfl rfl
     wlen (fun _ => (1, 1)) true (1, 1) true c7scene rfl rfl⟩

/-! ## Export finalization -/

/-- The six supported (resolution, frame rate) presets give six distinct
filenames: the name encodes both settings. -/
lemma exportFilename_inj (r₁ r₂ : Resolution) (f₁ f₂ : ℕ)
    (hf₁ : f₁ = 24 ∨ f₁ = 30 ∨ f₁ = 60) (hf₂ : f₂ = 24 ∨ f₂ = 30 ∨ f₂ = 60)
    (h : exportFilename r₁ f₁ = exportFilename r₂ f₂) : r₁ = r₂ ∧ f₁ = f₂ := by
  rcases hf₁ with rfl | rfl | rfl <;> rcases hf₂ with rfl | rfl | rfl <;>
    cases r₁ <;> cases r₂ <;>
    first
    | exact ⟨rfl, rfl⟩
    | exact absurd h (by decide)

/-- A state captured mid-export with two buffered chunks, for claim C8. -/
def c8state : PState :=
  { initState [mkScene 0 "a" true] with
      isExporting := true
      exportDest := true
      recorderActive := some true
      recordedChunks := [1, 2] }

/-- Claim C8 counterexample: the `onstop` handler does not release the
buffered chunks - after it runs, `recordedChunksRef` still holds them. -/
theorem export_finalize_counterexample :
    (recorderOnStop c8state).recordedChunks ≠ [] ∧
    (recorderOnStop c8state).recordedChunks = [1, 2] := by
  exact ⟨by decide, rfl⟩

/-- Claim C8 (amended): on recorder stop the handler appends exactly one
download whose blob is the chunk list in arrival order and whose filename
(injective over the six resolution/frame-rate presets) encodes both settings,
clears the exporting flag and the duplicate audio routing, and leaves the
recorder inactive; the chunk buffer is not cleared at stop - it is reset at
the start of the next export, so a later export still begins empty. -/
theorem export_finalize_amended (s : PState) (r₁ r₂ : Resolution) (f₁ f₂ : ℕ)
    (hf₁ : f₁ = 24 ∨ f₁ = 30 ∨ f₁ = 60) (hf₂ : f₂ = 24 ∨ f₂ = 30 ∨ f₂ = 60)
    (hname : exportFilename r₁ f₁ = exportFilename r₂ f₂) :
    (recorderOnStop s).downloads =
      s.downloads ++ [(s.recordedChunks, exportFilename s.resolution s.fps)] ∧
    (recorderOnStop s).isExporting = false ∧
    (recorderOnStop s).exportDest = false ∧
    (recorderOnStop s).recorderActive = some false ∧
    (recorderOnStop s).recordedChunks = s.recordedChunks ∧
    (handleExport s).recordedChunks = [] ∧
    r₁ = r₂ ∧ f₁ = f₂ := by
  have hinj := exportFilename_inj r₁ r₂ f₁ f₂ hf₁ hf₂ hname
  have hchunks : (handleExport s).recordedChunks = [] := by
    unfold handleExport
    exact (playScene_preserved _ _).2.2.2.2
  exact ⟨rfl, rfl, rfl, rfl, rfl, hchunks, hinj.1, hinj.2⟩

theorem export_finalize_amended_witness :
    ((30 : ℕ) = 24 ∨ (30 : ℕ) = 30 ∨ (30 : ℕ) = 60) ∧
    exportFilename .r1080 30 = exportFilename .r1080 30 ∧
    ((recorderOnStop c8state).downloads =
        c8state.downloads ++
          [(c8state.recordedChunks, exportFilename c8state.resolution c8state.fps)] ∧
      (recorderOnStop c8state).isExporting = false ∧
      (recorderOnStop c8state).exportDest = false ∧
      (recorderOnStop c8state).recorderActive = some false ∧
      (recorderOnStop c8state).recordedChunks = c8state.recordedChunks ∧
      (handleExport c8state).recordedChunks = [] ∧
      Resolution.r1080 = Resolution.r1080 ∧ (30 : ℕ) = 30) :=
  ⟨Or.inr (Or.inl rfl), rfl,
   export_finalize_amended c8state .r1080 .r1080 30 30 (Or.inr (Or.inl rfl))
     (Or.inr (Or.inl rfl)) rfl⟩

/-! ## Audio decoding lemmas -/

lemma toInt16_length : ∀ l : List ℕ, (toInt16 l).length = l.length / 2
  | [] => by simp [toInt16]
  | [_] => by simp [toInt16]
  | _ :: _ :: rest => by
    simp only [toInt16, List.length_cons, toInt16_length rest]
    omega

lemma int16OfBytes_bounds (lo hi : ℕ) (hlo : lo < 256) (hhi : hi < 256) :
    -32768 ≤ int16OfBytes lo hi ∧ int16OfBytes lo hi ≤ 32767 := by
  simp only [int16OfBytes]
  split <;> omega

lemma toInt16_bounds : ∀ l : List ℕ, (∀ b ∈ l, b < 256) →
    ∀ z ∈ toInt16 l, -32768 ≤ z ∧ z ≤ 32767
  | [] => by simp [toInt16]
  | [_] => by simp [toInt16]
  | a :: b :: rest => by
    intro hb z hz
    simp only [toInt16, List.mem_cons] at hz
    rcases hz with rfl | hz
    · exact int16OfBytes_bounds a b (hb a (by simp)) (hb b (by simp))
    · exact toInt16_bounds rest (fun x hx => hb x (by simp [hx])) z hz

lemma getD_bounds (l : List ℤ) (hl : ∀ z ∈ l, -32768 ≤ z ∧ z ≤ 32767) (n : ℕ) :
    -32768 ≤ l.getD n 0 ∧ l.getD n 0 ≤ 32767 := by
  rcases h : l.get? n with _ | z
  · rw [List.getD_eq_get?, h]
    norm_num
  · rw [List.getD_eq_get?, h]
    exact hl z (List.get?_mem h)

lemma padEven_bytes (data : List ℕ) (hb : ∀ b ∈ data, b < 256) :
    ∀ b ∈ padEven data, b < 256 := by
  intro b hbm
  unfold padEven at hbm
  split at hbm
  · rcases List.mem_append.mp hbm with h | h
    · exact hb b h
    · simp only [List.mem_singleton] at h
      omega
  · exact hb b hbm

/-- Claim C10: `decodeAudioData` is total - an odd-length byte array is
zero-padded by one byte instead of erroring - and produces `numChannels`
channels of `floor(paddedLength/2 / numChannels)` frames each, every sample
being the corresponding little-endian signed 16-bit value divided by 32768,
hence in `[-1, 1)`. -/
theorem decode_audio_spec (data : List ℕ) (sampleRate numChannels : ℕ)
    (hc : 1 ≤ numChannels) (hbytes : ∀ b ∈ data, b < 256) :
    (decodeAudioData data sampleRate numChannels).channels.length = numChannels ∧
    (data.length % 2 = 1 → (padEven data).length = data.length + 1) ∧
    (padEven data).length % 2 = 0 ∧
    (∀ chan ∈ (decodeAudioData data sampleRate numChannels).channels,
      chan.length = (padEven data).length / 2 / numChannels) ∧
    (∀ ch, ch < numChannels →
      ∀ i, i < (padEven data).length / 2 / numChannels →
        ((decodeAudioData data sampleRate numChannels).channels.getD ch []).getD i 0 =
          ((toInt16 (padEven data)).getD (i * numChannels + ch) 0 : ℚ) / 32768) ∧
    (∀ chan ∈ (decodeAudioData data sampleRate numChannels).channels,
      ∀ x ∈ chan, -1 ≤ x ∧ x < 1) := by
  refine ⟨?_, ?_, ?_, ?_, ?_, ?_⟩
  · simp [decodeAudioData]
  · intro h
    simp [padEven, h]
  · unfold padEven
    split
    · simp only [List.length_append, List.length_singleton]
      omega
    · omega
  · intro chan hchan
    simp only [decodeAudioData, List.mem_map] at hchan
    obtain ⟨ch, hch, rfl⟩ := hchan
    simp [toInt16_length]
  · intro ch hch i hi
    have h1 : ((List.range numChannels).map (fun ch =>
        (List.range ((toInt16 (padEven data)).length / numChannels)).map fun i =>
          ((toInt16 (padEven data)).getD (i * numChannels + ch) 0 : ℚ) / 32768)).get? ch
        = some ((List.range ((toInt16 (padEven data)).length / numChannels)).map fun i =>
          ((toInt16 (padEven data)).getD (i * numChannels + ch) 0 : ℚ) / 32768) := by
      rw [List.get?_map, List.get?_range hch]
      rfl
    have hi2 : i < (toInt16 (padEven data)).length / numChannels := by
      rw [toInt16_length]
      exact hi
    have h2 : ((List.range ((toInt16 (padEven data)).length / numChannels)).map fun i =>
        ((toInt16 (padEven data)).getD (i * numChannels + ch) 0 : ℚ) / 32768).get? i
        = some (((toInt16 (padEven data)).getD (i * numChannels + ch) 0 : ℚ) / 32768) := by
      rw [List.get?_map, List.get?_range hi2]
      rfl
    show (((List.range numChannels).map _).getD ch []).getD i 0 = _
    rw [List.getD_eq_get?, List.getD_eq_get?, h1, Option.getD_some, h2,
      Option.getD_some]
  · intro chan hchan x hx
    simp only [decodeAudioData, List.mem_map] at hchan
    obtain ⟨ch, hch, rfl⟩ := hchan
    simp only [List.mem_map, List.mem_range] at hx
    obtain ⟨i, hi, rfl⟩ := hx
    have hb := getD_bounds (toInt16 (padEven data))
      (toInt16_bounds _ (padEven_bytes data hbytes)) (i * numChannels + ch)
    constructor
    · rw [le_div_iff₀ (by norm_num : (0 : ℚ) < 32768)]
      have h1 : (-32768 : ℚ) ≤
          ((toInt16 (padEven data)).getD (i * numChannels + ch) 0 : ℚ) := by
        exact_mod_cast hb.1
      linarith
    · rw [div_lt_one (by norm_num : (0 : ℚ) < 32768)]
      have h2 : ((toInt16 (padEven data)).getD (i * numChannels + ch) 0 : ℚ) ≤ 32767 := by
        exact_mod_cast hb.2
      linarith

theorem decode_audio_spec_witness :
    1 ≤ 1 ∧ (∀ b ∈ ([0, 128, 255] : List ℕ), b < 256) ∧
    ((decodeAudioData [0, 128, 255] 24000 1).channels.length = 1 ∧
      (([0, 128, 255] : List ℕ).length % 2 = 1 →
        (padEven [0, 128, 255]).length = ([0, 128, 255] : List ℕ).length + 1) ∧
      (padEven [0, 128, 255]).length % 2 = 0 ∧
      (∀ chan ∈ (decodeAudioData [0, 128, 255] 24000 1).channels,
        chan.length = (padEven [0, 128, 255]).length / 2 / 1) ∧
      (∀ ch, ch < 1 → ∀ i, i < (padEven [0, 128, 255]).length / 2 / 1 →
        ((decodeAudioData [0, 128, 255] 24000 1).channels.getD ch []).getD i 0 =
          ((toInt16 (padEven [0, 128, 255])).getD (i * 1 + ch) 0 : ℚ) / 32768) ∧
      (∀ chan ∈ (decodeAudioData [0, 128, 255] 24000 1).channels,
        ∀ x ∈ chan, -1 ≤ x ∧ x < 1)) :=
  ⟨le_refl 1, by decide, decode_audio_spec [0, 128, 255] 24000 1 (le_refl 1) (by decide)⟩

end Doc2Video
